import Mathlib

/-!
# Verification of the gas-soundness-check repository

Shallow embedding, in Lean 4, of the core logic of the Python sources
`fee-profile.py`, `batch_fee_report.py`, `app1.py`, `App2.py` and
`provider_consistency.py`.  Python floats are modelled as rationals,
Python ints as `ℤ`/`ℕ`, Python strings as lists of characters, and
`bytes` values as lists of naturals below 256.  Fallible code is
modelled with `Except`, and the network boundary is modelled as a trace
of `GatewayCall` events emitted by each entry point.
-/

/-- Python `round` on an integer-plus-fraction value: round half to even
(banker's rounding), as implemented by CPython for `round(x)`. -/
def pyRound (q : ℚ) : ℤ :=
  let f := ⌊q⌋
  let r := q - f
  if r < 1/2 then f
  else if 1/2 < r then f + 1
  else if f % 2 = 0 then f else f + 1

/-- Python `round(x, 3)`: round to three decimal places (half to even). -/
def pyRound3 (q : ℚ) : ℚ := (pyRound (q * 1000) : ℚ) / 1000

theorem pyRound_le (q : ℚ) : (pyRound q : ℚ) ≤ q + 1/2 := by
  have hf : (⌊q⌋ : ℚ) ≤ q := Int.floor_le q
  have hf2 : q < (⌊q⌋ : ℚ) + 1 := Int.lt_floor_add_one q
  unfold pyRound
  dsimp only
  split_ifs <;> push_cast <;> linarith

theorem le_pyRound (q : ℚ) : q - 1/2 ≤ (pyRound q : ℚ) := by
  have hf : (⌊q⌋ : ℚ) ≤ q := Int.floor_le q
  have hf2 : q < (⌊q⌋ : ℚ) + 1 := Int.lt_floor_add_one q
  unfold pyRound
  dsimp only
  split_ifs <;> push_cast <;> linarith

/-- Rounding a value in `[0, m]` lies in `[0, m]` (for an integer `m ≥ 0`). -/
theorem pyRound_mem_Icc {q : ℚ} {m : ℤ} (h0 : 0 ≤ q) (hm : q ≤ (m : ℚ)) :
    0 ≤ pyRound q ∧ pyRound q ≤ m := by
  constructor
  · have h := le_pyRound q
    have h1 : (-1 : ℚ) < (pyRound q : ℚ) := by linarith
    have h2 : (-1 : ℤ) < pyRound q := by exact_mod_cast h1
    omega
  · have h := pyRound_le q
    have h1 : (pyRound q : ℚ) < (m : ℚ) + 1 := by linarith
    have h2 : pyRound q < m + 1 := by exact_mod_cast h1
    omega

namespace FeeProfile

/-- Model of `pct(values, q)` from `src/fee-profile.py` lines 55-62: the q-th
percentile (nearest rank, no interpolation) of a list of floats.
`sorted(values)` is modelled by stable insertion sort. -/
def pct (values : List ℚ) (q : ℚ) : ℚ :=
  if values = [] then 0
  else
    let q2 := max 0 (min 1 q)
    let sorted_vals := values.insertionSort (· ≤ ·)
    let idx := pyRound (q2 * ((sorted_vals.length : ℚ) - 1))
    sorted_vals.getD idx.toNat 0

/-- The (integer) index used by `pct` after clamping the quantile. -/
def pctIdx (values : List ℚ) (q : ℚ) : ℤ :=
  pyRound ((max 0 (min 1 q)) * (((values.insertionSort (· ≤ ·)).length : ℚ) - 1))

/-- Python `statistics.median`: mean of the two middle elements of the
sorted list for an even length, middle element for odd length.
(`statistics.median` raises on an empty list; `analyze` guards every call
with `if population else 0.0`, so the value at `[]` is never used and is
set to `0` here.) -/
def pyMedian (xs : List ℚ) : ℚ :=
  let s := xs.insertionSort (· ≤ ·)
  let n := xs.length
  if n = 0 then 0
  else if n % 2 = 1 then s.getD (n / 2) 0
  else (s.getD (n / 2 - 1) 0 + s.getD (n / 2) 0) / 2

/-- Python `min` over a nonempty list (`0` for `[]`, unreachable in `analyze`). -/
def pyListMin (xs : List ℚ) : ℚ :=
  match xs with
  | [] => 0
  | x :: r => r.foldl min x

/-- Python `max` over a nonempty list (`0` for `[]`, unreachable in `analyze`). -/
def pyListMax (xs : List ℚ) : ℚ :=
  match xs with
  | [] => 0
  | x :: r => r.foldl max x

/-- One percentile block of the `analyze` result dictionary
(`src/fee-profile.py` lines 146-166): each entry is
`round(stat(xs), 3) if xs else 0.0`, where p50 uses `statistics.median`,
p95 uses `pct(xs, 0.95)`, and min/max use the builtins. -/
structure StatBlock where
  p50 : ℚ
  p95 : ℚ
  min : ℚ
  max : ℚ
  count : ℕ
  deriving DecidableEq, Repr

/-- The stat block `analyze` reports for one fee population
(`baseFeeGwei`, `effectivePriceGwei` and `tipGweiApprox` all use this
same shape, `src/fee-profile.py` lines 146-166). -/
def reportStats (xs : List ℚ) : StatBlock where
  p50 := if xs = [] then 0 else pyRound3 (pyMedian xs)
  p95 := if xs = [] then 0 else pyRound3 (pct xs (19/20))
  min := if xs = [] then 0 else pyRound3 (pyListMin xs)
  max := if xs = [] then 0 else pyRound3 (pyListMax xs)
  count := xs.length

theorem clamp01_idem (q : ℚ) : max 0 (min 1 (max 0 (min 1 q))) = max 0 (min 1 q) := by
  have h1 : max 0 (min 1 q) ≤ 1 := max_le (by norm_num) (min_le_left 1 q)
  have h0 : (0:ℚ) ≤ max 0 (min 1 q) := le_max_left 0 _
  rw [min_eq_right h1, max_eq_right h0]

theorem pctIdx_bounds {xs : List ℚ} (q : ℚ) (hne : xs ≠ []) :
    0 ≤ pctIdx xs q ∧ (pctIdx xs q).toNat < xs.length := by
  have hn : 1 ≤ xs.length := List.length_pos.mpr hne
  have hlen : (xs.insertionSort (· ≤ ·)).length = xs.length :=
    List.length_insertionSort _ xs
  have h0q : (0:ℚ) ≤ max 0 (min 1 q) := le_max_left 0 _
  have h1q : max 0 (min 1 q) ≤ 1 := max_le (by norm_num) (min_le_left 1 q)
  have hn1 : (1:ℚ) ≤ (xs.length : ℚ) := by exact_mod_cast hn
  have hx0 : 0 ≤ (max 0 (min 1 q)) * (((xs.insertionSort (· ≤ ·)).length : ℚ) - 1) := by
    rw [hlen]; exact mul_nonneg h0q (by linarith)
  have hx1 : (max 0 (min 1 q)) * (((xs.insertionSort (· ≤ ·)).length : ℚ) - 1) ≤
      (((xs.length : ℤ) - 1 : ℤ) : ℚ) := by
    rw [hlen]
    have := mul_le_of_le_one_left (b := ((xs.length : ℚ) - 1)) (by linarith) h1q
    push_cast
    linarith
  have hb := pyRound_mem_Icc hx0 hx1
  unfold pctIdx
  refine ⟨hb.1, ?_⟩
  have h2 := hb.2
  omega

theorem pct_eq_getD {xs : List ℚ} (q : ℚ) (hne : xs ≠ []) :
    pct xs q = (xs.insertionSort (· ≤ ·)).getD (pctIdx xs q).toNat 0 := by
  unfold pct pctIdx
  rw [if_neg hne]

/-- C9: `pct` is total in its quantile argument: the quantile is clamped to
`[0,1]` first, so `pct xs q = pct xs (max 0 (min 1 q))` for every `q`
(including `q < 0` and `q > 1`), and for a nonempty list the computed index
is in bounds: `0 ≤ idx` and `idx < length xs`, with the result read off the
sorted list at that index. -/
theorem pct_total_in_quantile (xs : List ℚ) (q : ℚ) :
    pct xs q = pct xs (max 0 (min 1 q)) ∧
    (xs ≠ [] →
      0 ≤ pctIdx xs q ∧ (pctIdx xs q).toNat < xs.length ∧
      pct xs q = (xs.insertionSort (· ≤ ·)).getD (pctIdx xs q).toNat 0) := by
  constructor
  · unfold pct
    rw [clamp01_idem]
  · intro hne
    obtain ⟨hb0, hb1⟩ := pctIdx_bounds q hne
    exact ⟨hb0, hb1, pct_eq_getD q hne⟩

theorem pct_total_in_quantile_witness :
    ([3, 5] : List ℚ) ≠ [] ∧
    0 ≤ pctIdx [3, 5] 2 ∧ (pctIdx [3, 5] 2).toNat < ([3, 5] : List ℚ).length := by
  have h := (pct_total_in_quantile [3, 5] 2).2 (by decide)
  exact ⟨by decide, h.1, h.2.1⟩

/-- C2 (amended): for `q ∈ [0,1]` and nonempty `xs`, `pct` returns the element
of the sorted list at index `round(q * (n-1))` (the index lies in `[0, n-1]`,
so the clamp is a no-op), and `0.0` for empty input; the reported p95 of a fee
population uses this nearest-rank `pct`, but the reported p50 is
`statistics.median`, which averages the two middle elements for an
even-length population rather than using the nearest-rank method. -/
theorem pct_nearest_rank_but_p50_is_median (xs : List ℚ) (q : ℚ)
    (h0 : 0 ≤ q) (h1 : q ≤ 1) (hne : xs ≠ []) :
    pct xs q =
      (xs.insertionSort (· ≤ ·)).getD (pyRound (q * ((xs.length : ℚ) - 1))).toNat 0 ∧
    (pyRound (q * ((xs.length : ℚ) - 1))).toNat < xs.length ∧
    pct [] q = 0 ∧
    (reportStats xs).p50 = pyRound3 (pyMedian xs) ∧
    (xs.length % 2 = 0 →
      pyMedian xs = ((xs.insertionSort (· ≤ ·)).getD (xs.length / 2 - 1) 0 +
        (xs.insertionSort (· ≤ ·)).getD (xs.length / 2) 0) / 2) ∧
    (reportStats xs).p95 = pyRound3 (pct xs (19/20)) := by
  have hclamp : max 0 (min 1 q) = q := by
    rw [min_eq_right h1, max_eq_right h0]
  have hlen : (xs.insertionSort (· ≤ ·)).length = xs.length :=
    List.length_insertionSort _ xs
  have hidx : pctIdx xs q = pyRound (q * ((xs.length : ℚ) - 1)) := by
    unfold pctIdx
    rw [hclamp, hlen]
  refine ⟨?_, ?_, ?_, ?_, ?_, ?_⟩
  · rw [pct_eq_getD q hne, hidx]
  · have h := (pctIdx_bounds q hne).2
    rw [hidx] at h
    exact h
  · unfold pct
    rw [if_pos rfl]
  · unfold reportStats
    simp only [if_neg hne]
  · intro heven
    unfold pyMedian
    have hn0 : xs.length ≠ 0 := fun h => hne (List.length_eq_zero.mp h)
    have hodd : ¬ xs.length % 2 = 1 := by omega
    simp only [if_neg hn0, if_neg hodd]
  · unfold reportStats
    simp only [if_neg hne]

theorem pct_nearest_rank_but_p50_is_median_witness :
    (0:ℚ) ≤ 1 ∧ (1:ℚ) ≤ 1 ∧ ([4, 7] : List ℚ) ≠ [] ∧
    (FeeProfile.reportStats [4, 7]).p95 = pyRound3 (FeeProfile.pct [4, 7] (19/20)) :=
  ⟨by norm_num, le_refl 1, by decide,
    (pct_nearest_rank_but_p50_is_median [4, 7] 1 (by norm_num) (le_refl 1)
      (by decide)).2.2.2.2.2⟩

/-- C2 counterexample: on the population `[1, 2]` the reported p50 is the
even-length average `1.5` produced by `statistics.median`, while the
nearest-rank method (`pct` at `q = 0.5`, followed by the same 3-decimal
rounding the report applies) yields `1`; so the reported p50 does not use the
nearest-rank method. -/
theorem reported_p50_differs_from_nearest_rank :
    (reportStats [1, 2]).p50 = 3/2 ∧
    pct [1, 2] (1/2) = 1 ∧
    (reportStats [1, 2]).p50 ≠ pyRound3 (pct [1, 2] (1/2)) := by
  have hsort : List.insertionSort (· ≤ ·) [(1:ℚ), 2] = [1, 2] := by
    norm_num [List.insertionSort, List.orderedInsert]
  have hmed : pyMedian [1, 2] = 3/2 := by
    unfold pyMedian
    rw [hsort]
    norm_num [List.getD]
  have hround0 : pyRound (1/2) = 0 := by
    unfold pyRound
    norm_num
  have hpct : pct [1, 2] (1/2) = 1 := by
    unfold pct
    rw [if_neg (by decide)]
    rw [hsort]
    have hq : max (0:ℚ) (min 1 (1/2)) = 1/2 := by norm_num
    simp only [hq, List.length_cons, List.length_nil]
    norm_num [hround0, List.getD]
  have hr1500 : pyRound ((3/2 : ℚ) * 1000) = 1500 := by
    unfold pyRound
    norm_num
  have hr3 : pyRound3 (3/2) = 3/2 := by
    unfold pyRound3
    rw [hr1500]
    norm_num
  have hp50 : (reportStats [1, 2]).p50 = 3/2 := by
    unfold reportStats
    simp only [if_neg (show ([1,2] : List ℚ) ≠ [] by decide)]
    rw [hmed, hr3]
  refine ⟨hp50, hpct, ?_⟩
  rw [hp50, hpct]
  have : pyRound3 1 = 1 := by
    unfold pyRound3 pyRound
    norm_num
  rw [this]
  norm_num

/-- A raw transaction record as read by `sample_block_fees`
(`src/fee-profile.py` lines 66-91).  A field is `none` when the key is absent
from the RPC payload; Python's `tx.get(key, 0)` is modelled by
`Option.getD _ 0`.  The type tag may be any integer (0, 1, 2, or an unknown
garbled value). -/
structure RawTx where
  type : Option ℤ
  gasPrice : Option ℕ
  maxFeePerGas : Option ℕ
  maxPriorityFeePerGas : Option ℕ
  deriving DecidableEq, Repr

/-- Conversion `float(Web3.from_wei(x, "gwei"))`: wei to gwei, `1 gwei = 10^9 wei`. -/
def fromWeiGwei (x : ℤ) : ℚ := (x : ℚ) / 10^9

/-- Loop body of `sample_block_fees`: classify one transaction against the
block base fee `bf` and append its effective price and tip (in gwei) to the
two accumulated populations. -/
def sampleStep (bf : ℕ) (acc : List ℚ × List ℚ) (tx : RawTx) : List ℚ × List ℚ :=
  if tx.type.getD 0 = 2 then
    let mpp := tx.maxPriorityFeePerGas.getD 0
    let mfp := tx.maxFeePerGas.getD 0
    let effective := min (mfp : ℤ) ((bf : ℤ) + (mpp : ℤ))
    (acc.1 ++ [fromWeiGwei effective], acc.2 ++ [fromWeiGwei (mpp : ℤ)])
  else
    let gp := tx.gasPrice.getD 0
    (acc.1 ++ [fromWeiGwei (gp : ℤ)], acc.2 ++ [fromWeiGwei (max 0 ((gp : ℤ) - (bf : ℤ)))])

/-- Model of `sample_block_fees(block, base_fee_wei)` from `src/fee-profile.py`
lines 66-91: returns the `(effective_prices_gwei, tip_gwei_approx)` pair for
the transactions of a block.  `bf = base_fee_wei or 0` treats a missing base
fee as 0. -/
def sample_block_fees (txs : List RawTx) (base_fee_wei : Option ℕ) : List ℚ × List ℚ :=
  let bf : ℕ := base_fee_wei.getD 0
  txs.foldl (sampleStep bf) ([], [])

/-- The per-transaction effective gas price, in wei, implied by
`sample_block_fees` (the Fee Classifier of the spec). -/
def effectivePriceWei (tx : RawTx) (bf : ℕ) : ℤ :=
  if tx.type.getD 0 = 2 then
    min (tx.maxFeePerGas.getD 0 : ℤ) ((bf : ℤ) + (tx.maxPriorityFeePerGas.getD 0 : ℤ))
  else (tx.gasPrice.getD 0 : ℤ)

/-- The per-transaction priority tip, in wei, implied by `sample_block_fees`. -/
def tipWei (tx : RawTx) (bf : ℕ) : ℤ :=
  if tx.type.getD 0 = 2 then (tx.maxPriorityFeePerGas.getD 0 : ℤ)
  else max 0 ((tx.gasPrice.getD 0 : ℤ) - (bf : ℤ))

theorem sample_block_fees_eq_map (bf : ℕ) :
    ∀ (txs : List RawTx) (acc : List ℚ × List ℚ),
      txs.foldl (sampleStep bf) acc =
        (acc.1 ++ txs.map (fun t => fromWeiGwei (effectivePriceWei t bf)),
         acc.2 ++ txs.map (fun t => fromWeiGwei (tipWei t bf))) := by
  intro txs
  induction txs with
  | nil => intro acc; simp
  | cons t ts ih =>
    intro acc
    have hstep : sampleStep bf acc t =
        (acc.1 ++ [fromWeiGwei (effectivePriceWei t bf)],
         acc.2 ++ [fromWeiGwei (tipWei t bf)]) := by
      unfold sampleStep effectivePriceWei tipWei
      by_cases h : t.type.getD 0 = 2 <;> simp [h]
    rw [List.foldl_cons, hstep, ih]
    simp

/-- C1: for every raw transaction record and containing-block base fee, the
Fee Classifier used by `sample_block_fees` yields, for a fee-market
transaction (type tag 2), `effective = min(maxFeePerGas, baseFee +
maxPriorityFeePerGas)` and `tip = maxPriorityFeePerGas`; for every other type
tag (0, 1, missing, or unknown) it yields `effective = gasPrice` and
`tip = max(0, gasPrice - baseFee)`; a missing base fee is treated as 0.
The lists produced by `sample_block_fees` are exactly the per-transaction
classifications, converted to gwei. -/
theorem fee_classifier_rule (txs : List RawTx) (base_fee_wei : Option ℕ)
    (tx : RawTx) (bf : ℕ) :
    (sample_block_fees txs base_fee_wei).1 =
      txs.map (fun t => fromWeiGwei (effectivePriceWei t (base_fee_wei.getD 0))) ∧
    (sample_block_fees txs base_fee_wei).2 =
      txs.map (fun t => fromWeiGwei (tipWei t (base_fee_wei.getD 0))) ∧
    (tx.type.getD 0 = 2 →
      effectivePriceWei tx bf =
        min (tx.maxFeePerGas.getD 0 : ℤ) ((bf : ℤ) + (tx.maxPriorityFeePerGas.getD 0 : ℤ)) ∧
      tipWei tx bf = (tx.maxPriorityFeePerGas.getD 0 : ℤ)) ∧
    (tx.type.getD 0 ≠ 2 →
      effectivePriceWei tx bf = (tx.gasPrice.getD 0 : ℤ) ∧
      tipWei tx bf = max 0 ((tx.gasPrice.getD 0 : ℤ) - (bf : ℤ))) ∧
    sample_block_fees txs none = sample_block_fees txs (some 0) := by
  refine ⟨?_, ?_, ?_, ?_, rfl⟩
  · unfold sample_block_fees
    rw [sample_block_fees_eq_map]
    simp
  · unfold sample_block_fees
    rw [sample_block_fees_eq_map]
    simp
  · intro h
    unfold effectivePriceWei tipWei
    rw [if_pos h, if_pos h]
    exact ⟨rfl, rfl⟩
  · intro h
    unfold effectivePriceWei tipWei
    rw [if_neg h, if_neg h]
    exact ⟨rfl, rfl⟩

theorem fee_classifier_rule_witness :
    ((⟨some 2, none, some 30, some 2⟩ : RawTx).type.getD 0 = 2) ∧
    effectivePriceWei ⟨some 2, none, some 30, some 2⟩ 25 = 27 ∧
    tipWei ⟨some 2, none, some 30, some 2⟩ 25 = 2 ∧
    ((⟨some 0, some 12, none, none⟩ : RawTx).type.getD 0 ≠ 2) ∧
    effectivePriceWei ⟨some 0, some 12, none, none⟩ 10 = 12 ∧
    tipWei ⟨some 0, some 12, none, none⟩ 10 = 2 := by
  have h2 := (fee_classifier_rule [] none ⟨some 2, none, some 30, some 2⟩ 25).2.2.1
    (by decide)
  have h0 := (fee_classifier_rule [] none ⟨some 0, some 12, none, none⟩ 10).2.2.2.1
    (by decide)
  refine ⟨by decide, ?_, ?_, by decide, ?_, ?_⟩
  · rw [h2.1]; decide
  · rw [h2.2]; decide
  · rw [h0.1]; decide
  · rw [h0.2]; decide

end FeeProfile

/-- One query against the Chain RPC Gateway (the network boundary of the
spec).  `connectProbe` is the `Web3(...).is_connected()` connectivity check;
the remaining constructors are the five RPC operations the scripts use. -/
inductive GatewayCall where
  | connectProbe
  | chainId
  | blockNumber
  | getBlock (n : ℤ) (fullTx : Bool)
  | getTransaction
  | getTransactionReceipt
  | gasPrice
  deriving DecidableEq, Repr

namespace FeeProfile

/-- Bounded-fuel evaluator for the loop header
`for n in range(a, b, -s)` with a positive step `s`: yields `a, a - s, ...`
while the value stays above `b`.  One unit of fuel is spent per iteration;
`pyRangeDown` supplies `(a - b).toNat` units, which is enough because each
iteration decreases the counter by `s ≥ 1`. -/
def pyRangeDownAux (s : ℤ) : ℕ → ℤ → ℤ → List ℤ
  | 0, _, _ => []
  | fuel + 1, a, b => if b < a then a :: pyRangeDownAux s fuel (a - s) b else []

/-- Python `range(a, b, -s)` (as a list), for a positive step `s`. -/
def pyRangeDown (a b s : ℤ) : List ℤ := pyRangeDownAux s (a - b).toNat a b

/-- Value `start = max(0, head - blocks + 1)` from `src/fee-profile.py` line 100. -/
def analyzeStart (head blocks : ℤ) : ℤ := max 0 (head - blocks + 1)

/-- The block numbers visited by the sampling loop
`for n in range(head, start - 1, -step)` (`src/fee-profile.py` line 110). -/
def visitedBlocks (head blocks step : ℤ) : List ℤ :=
  pyRangeDown head (analyzeStart head blocks - 1) step

/-- Reported `"sampledBlocks": len(range(head, start - 1, -step))`
(`src/fee-profile.py` line 142). -/
def sampledBlocks (head blocks step : ℤ) : ℕ :=
  (visitedBlocks head blocks step).length

/-- Number of elements of `range(a, b, -s)`: `(a - b - 1) / s + 1` when
`b < a`, else `0`. -/
def pyRangeDownCount (a b s : ℤ) : ℕ :=
  if b < a then ((a - b - 1) / s).toNat + 1 else 0

theorem pyRangeDownCount_step {a b s : ℤ} (hs : 1 ≤ s) (h : b < a) :
    pyRangeDownCount a b s = pyRangeDownCount (a - s) b s + 1 := by
  unfold pyRangeDownCount
  rw [if_pos h]
  by_cases h2 : b < a - s
  · rw [if_pos h2]
    have hnum : a - b - 1 = (a - s - b - 1) + 1 * s := by ring
    have hdiv : (a - b - 1) / s = (a - s - b - 1) / s + 1 := by
      rw [hnum, Int.add_mul_ediv_right _ _ (by omega : s ≠ 0)]
    have hpos : 0 ≤ (a - s - b - 1) / s := Int.ediv_nonneg (by omega) (by omega)
    omega
  · rw [if_neg h2]
    have hlt : a - b - 1 < s := by omega
    have h0 : (a - b - 1) / s = 0 := Int.ediv_eq_zero_of_lt (by omega) hlt
    omega

theorem pyRangeDownAux_eq_map {b s : ℤ} (hs : 1 ≤ s) :
    ∀ (fuel : ℕ) (a : ℤ), (a - b).toNat ≤ fuel →
      pyRangeDownAux s fuel a b =
        (List.range (pyRangeDownCount a b s)).map (fun k : ℕ => a - (k : ℤ) * s) := by
  intro fuel
  induction fuel with
  | zero =>
    intro a hfuel
    have hab : ¬ b < a := by omega
    unfold pyRangeDownAux pyRangeDownCount
    rw [if_neg hab]
    simp
  | succ fuel ih =>
    intro a hfuel
    by_cases h : b < a
    · have hrec := ih (a - s) (by omega)
      have hcnt := pyRangeDownCount_step hs h
      unfold pyRangeDownAux
      rw [if_pos h, hrec, hcnt, List.range_succ_eq_map]
      rw [List.map_cons, List.map_map]
      have hfun : ((fun k : ℕ => a - (k : ℤ) * s) ∘ Nat.succ) = fun k : ℕ => a - s - (k : ℤ) * s := by
        funext k
        simp only [Function.comp_apply, Nat.succ_eq_add_one]
        push_cast
        ring
      rw [hfun]
      simp
    · unfold pyRangeDownAux pyRangeDownCount
      rw [if_neg h, if_neg h]
      simp

theorem pyRangeDown_eq_map {a b s : ℤ} (hs : 1 ≤ s) :
    pyRangeDown a b s = (List.range (pyRangeDownCount a b s)).map (fun k : ℕ => a - (k : ℤ) * s) :=
  pyRangeDownAux_eq_map hs _ a (le_refl _)

/-- C5: for every `head ≥ 0`, `blockSpan ≥ 1` and `stride ≥ 1`, the sampling
loop of `analyze` visits exactly the block numbers `head, head - stride,
head - 2*stride, ...` down to `start = max(0, head - blockSpan + 1)`, and the
reported `sampledBlocks` count is `floor((head - start)/stride) + 1`; in
particular `head=100, blockSpan=10, stride=3` visits `[100, 97, 94, 91]` and
reports 4 sampled blocks. -/
theorem sampler_visited_blocks (head blocks step : ℤ)
    (hb : 1 ≤ blocks) (hs : 1 ≤ step) (hh : 0 ≤ head) :
    visitedBlocks head blocks step =
      (List.range (((head - analyzeStart head blocks) / step).toNat + 1)).map
        (fun k : ℕ => head - (k : ℤ) * step) ∧
    sampledBlocks head blocks step =
      ((head - analyzeStart head blocks) / step).toNat + 1 ∧
    visitedBlocks 100 10 3 = [100, 97, 94, 91] ∧
    sampledBlocks 100 10 3 = 4 := by
  have hstart : analyzeStart head blocks ≤ head := by
    unfold analyzeStart
    omega
  have hlt : analyzeStart head blocks - 1 < head := by omega
  have hcnt : pyRangeDownCount head (analyzeStart head blocks - 1) step =
      ((head - analyzeStart head blocks) / step).toNat + 1 := by
    unfold pyRangeDownCount
    rw [if_pos hlt]
    have : head - (analyzeStart head blocks - 1) - 1 = head - analyzeStart head blocks := by
      ring
    rw [this]
  have hmap : visitedBlocks head blocks step =
      (List.range (((head - analyzeStart head blocks) / step).toNat + 1)).map
        (fun k : ℕ => head - (k : ℤ) * step) := by
    unfold visitedBlocks
    rw [pyRangeDown_eq_map hs, hcnt]
  refine ⟨hmap, ?_, by decide, by decide⟩
  unfold sampledBlocks
  rw [hmap]
  simp

theorem sampler_visited_blocks_witness :
    (1:ℤ) ≤ 10 ∧ (1:ℤ) ≤ 3 ∧ (0:ℤ) ≤ 100 ∧
    visitedBlocks 100 10 3 = [100, 97, 94, 91] ∧ sampledBlocks 100 10 3 = 4 := by
  have h := sampler_visited_blocks 100 10 3 (by decide) (by decide) (by decide)
  exact ⟨by decide, by decide, by decide, h.2.2.1, h.2.2.2⟩

/-- Outcome of one `fee-profile.py` run. -/
inductive FeeProfileOutcome where
  | configError
  | nameErrorCrash
  | completed
  deriving DecidableEq, Repr

/-- Gateway traffic of `connect(rpc)` from `src/fee-profile.py` lines 39-50: probes
connectivity, then reads the latest block number and the chain id for the
banner line. -/
def connectCalls : List GatewayCall :=
  [GatewayCall.connectProbe, GatewayCall.blockNumber, GatewayCall.chainId]

/-- Gateway traffic of `analyze(w3, blocks, step, head_override)`
(`src/fee-profile.py` lines 93-167): resolve the head (one `blockNumber`
query unless overridden), fetch every visited block with full transactions,
then either crash with a `NameError` in the average-block-time branch
(line 129 reads the undefined name `block`, see `analyzeAvgBlockTime` below)
or finish and read the chain id twice for the result dictionary. -/
def analyzeRun (blocks step : ℤ) (head_override : Option ℤ) (latest : ℤ) :
    FeeProfileOutcome × List GatewayCall :=
  let head := head_override.getD latest
  let start := analyzeStart head blocks
  let headCall : List GatewayCall :=
    if head_override.isNone then [GatewayCall.blockNumber] else []
  let scan := (visitedBlocks head blocks step).map (fun n => GatewayCall.getBlock n true)
  if 2 ≤ (visitedBlocks head blocks step).length ∧ start < head then
    (FeeProfileOutcome.nameErrorCrash,
      headCall ++ scan ++ [GatewayCall.getBlock head false, GatewayCall.getBlock start false])
  else
    (FeeProfileOutcome.completed,
      headCall ++ scan ++ [GatewayCall.chainId, GatewayCall.chainId])

/-- Model of `main()` from `src/fee-profile.py` lines 200-216.  The indentation of
`main` is mangled in the source; this model follows the legible statement
order: after `parse_args`, the validation `args.blocks <= 0 or args.step <= 0`
(with its error message and `sys.exit(1)`) precedes the 5000-block clamp,
`connect(args.rpc)` and `analyze(...)`. -/
def feeProfileMain (blocks step : ℤ) (head_override : Option ℤ) (latest : ℤ) :
    FeeProfileOutcome × List GatewayCall :=
  if blocks ≤ 0 ∨ step ≤ 0 then (FeeProfileOutcome.configError, [])
  else
    let blocks2 := if 5000 < blocks then 5000 else blocks
    let run := analyzeRun blocks2 step head_override latest
    (run.1, connectCalls ++ run.2)

/-- C6: a requested stride (step) `≤ 0` or block span `≤ 0` terminates the
sampler run with a configuration error before any Gateway call: the emitted
call trace is empty, so no block or latest-number query is issued. -/
theorem config_error_before_any_gateway_call (blocks step : ℤ)
    (head_override : Option ℤ) (latest : ℤ) (h : step ≤ 0 ∨ blocks ≤ 0) :
    (feeProfileMain blocks step head_override latest).1 = FeeProfileOutcome.configError ∧
    (feeProfileMain blocks step head_override latest).2 = [] := by
  unfold feeProfileMain
  rw [if_pos h.symm]
  exact ⟨rfl, rfl⟩

theorem config_error_before_any_gateway_call_witness :
    ((0:ℤ) ≤ 0 ∨ (300:ℤ) ≤ 0) ∧
    (feeProfileMain 300 0 none 19000000).1 = FeeProfileOutcome.configError ∧
    (feeProfileMain 300 0 none 19000000).2 = [] := by
  have h := config_error_before_any_gateway_call 300 0 none 19000000 (by decide)
  exact ⟨by decide, h.1, h.2⟩

end FeeProfile

namespace ProviderConsistency

/-- Python `int(n).to_bytes(w, "big")`: the unsigned big-endian `w`-byte
encoding of `n`.  (CPython raises `OverflowError` when `n ≥ 256^w`; the
theorems below assume in-range values.) -/
def toBytesBE : ℕ → ℕ → List ℕ
  | 0, _ => []
  | w + 1, n => toBytesBE w (n / 256) ++ [n % 256]

/-- Big-endian byte-list decoder, `int.from_bytes(bs, "big")`. -/
def fromBytesBE (bs : List ℕ) : ℕ := bs.foldl (fun acc b => acc * 256 + b) 0

theorem toBytesBE_length : ∀ (w n : ℕ), (toBytesBE w n).length = w := by
  intro w
  induction w with
  | zero => intro n; rfl
  | succ w ih =>
    intro n
    unfold toBytesBE
    rw [List.length_append, ih]
    rfl

theorem fromBytesBE_append_byte (bs : List ℕ) (b : ℕ) :
    fromBytesBE (bs ++ [b]) = fromBytesBE bs * 256 + b := by
  unfold fromBytesBE
  rw [List.foldl_append]
  rfl

theorem fromBytesBE_toBytesBE : ∀ (w n : ℕ), n < 256 ^ w →
    fromBytesBE (toBytesBE w n) = n := by
  intro w
  induction w with
  | zero =>
    intro n h
    interval_cases n
    rfl
  | succ w ih =>
    intro n h
    have hdiv : n / 256 < 256 ^ w := by
      rw [Nat.div_lt_iff_lt_mul (by norm_num)]
      calc n < 256 ^ (w + 1) := h
        _ = 256 ^ w * 256 := by ring
    unfold toBytesBE
    rw [fromBytesBE_append_byte, ih _ hdiv]
    omega

/-- A transaction receipt as consumed by `tx_commitment`
(`src/provider_consistency.py` lines 63-78). -/
structure ReceiptView where
  blockNumber : ℕ
  status : ℕ
  gasUsed : ℕ
  deriving DecidableEq, Repr

/-- A block header as consumed by `header_commitment`
(`src/provider_consistency.py` lines 80-99).  The 32-byte hash and root
fields are modelled by their byte values; the round-trip
`bytes.fromhex(field.hex()[2:])` performed by the source is the identity on
those values. -/
structure HeaderView where
  number : ℕ
  hash : List ℕ
  parentHash : List ℕ
  stateRoot : List ℕ
  receiptsRoot : List ℕ
  transactionsRoot : List ℕ
  timestamp : ℕ
  deriving DecidableEq, Repr

/-- The byte payload hashed by `tx_commitment`
(`src/provider_consistency.py` lines 71-77):
`chainId(8) ++ txHash(32) ++ blockNumber(8) ++ status(1) ++ gasUsed(8)`.
The `0x`-prefixed hex string `tx_hash` is modelled by its decoded bytes
(`bytes.fromhex(tx_hash[2:])`). -/
def txPayload (chain_id : ℕ) (tx_hash : List ℕ) (rcpt : ReceiptView) : List ℕ :=
  toBytesBE 8 chain_id ++ tx_hash ++ toBytesBE 8 rcpt.blockNumber ++
    toBytesBE 1 rcpt.status ++ toBytesBE 8 rcpt.gasUsed

/-- Model of `tx_commitment(chain_id, tx_hash, rcpt)` from
`src/provider_consistency.py` lines 63-78, with the keccak hash function
passed explicitly as a parameter. -/
def tx_commitment (keccak : List ℕ → List ℕ) (chain_id : ℕ)
    (tx_hash : List ℕ) (rcpt : ReceiptView) : List ℕ :=
  keccak (txPayload chain_id tx_hash rcpt)

/-- The byte payload hashed by `header_commitment`
(`src/provider_consistency.py` lines 89-98):
`chainId(8) ++ number(8) ++ hash(32) ++ parentHash(32) ++ stateRoot(32) ++
receiptsRoot(32) ++ transactionsRoot(32) ++ timestamp(8)`. -/
def headerPayload (chain_id : ℕ) (h : HeaderView) : List ℕ :=
  toBytesBE 8 chain_id ++ toBytesBE 8 h.number ++ h.hash ++ h.parentHash ++
    h.stateRoot ++ h.receiptsRoot ++ h.transactionsRoot ++ toBytesBE 8 h.timestamp

/-- Model of `header_commitment(chain_id, header)` from
`src/provider_consistency.py` lines 80-99. -/
def header_commitment (keccak : List ℕ → List ℕ) (chain_id : ℕ)
    (h : HeaderView) : List ℕ :=
  keccak (headerPayload chain_id h)

/-- C3: for in-range field values, `tx_commitment` hashes exactly the 57-byte
concatenation `chainId(8, big-endian) ∥ txHash(32) ∥ blockNumber(8) ∥
status(1) ∥ gasUsed(8)` and `header_commitment` hashes exactly the 184-byte
concatenation `chainId(8) ∥ number(8) ∥ hash(32) ∥ parentHash(32) ∥
stateRoot(32) ∥ receiptsRoot(32) ∥ transactionsRoot(32) ∥ timestamp(8)`:
slicing each payload at the documented offsets recovers every field.  Both
are deterministic functions of the field values, so identical fields yield
bit-identical digests. -/
theorem commitment_byte_layout (keccak : List ℕ → List ℕ) (chain_id : ℕ)
    (tx_hash : List ℕ) (rcpt : ReceiptView) (hd : HeaderView)
    (hcid : chain_id < 256 ^ 8) (hth : tx_hash.length = 32)
    (hbn : rcpt.blockNumber < 256 ^ 8) (hst : rcpt.status < 256)
    (hgu : rcpt.gasUsed < 256 ^ 8)
    (hnum : hd.number < 256 ^ 8) (hts : hd.timestamp < 256 ^ 8)
    (hh : hd.hash.length = 32) (hph : hd.parentHash.length = 32)
    (hsr : hd.stateRoot.length = 32) (hrr : hd.receiptsRoot.length = 32)
    (htr : hd.transactionsRoot.length = 32) :
    tx_commitment keccak chain_id tx_hash rcpt = keccak (txPayload chain_id tx_hash rcpt) ∧
    (txPayload chain_id tx_hash rcpt).length = 57 ∧
    fromBytesBE ((txPayload chain_id tx_hash rcpt).take 8) = chain_id ∧
    ((txPayload chain_id tx_hash rcpt).drop 8).take 32 = tx_hash ∧
    fromBytesBE (((txPayload chain_id tx_hash rcpt).drop 40).take 8) = rcpt.blockNumber ∧
    fromBytesBE (((txPayload chain_id tx_hash rcpt).drop 48).take 1) = rcpt.status ∧
    fromBytesBE ((txPayload chain_id tx_hash rcpt).drop 49) = rcpt.gasUsed ∧
    header_commitment keccak chain_id hd = keccak (headerPayload chain_id hd) ∧
    (headerPayload chain_id hd).length = 184 ∧
    fromBytesBE ((headerPayload chain_id hd).take 8) = chain_id ∧
    fromBytesBE (((headerPayload chain_id hd).drop 8).take 8) = hd.number ∧
    ((headerPayload chain_id hd).drop 16).take 32 = hd.hash ∧
    ((headerPayload chain_id hd).drop 48).take 32 = hd.parentHash ∧
    ((headerPayload chain_id hd).drop 80).take 32 = hd.stateRoot ∧
    ((headerPayload chain_id hd).drop 112).take 32 = hd.receiptsRoot ∧
    ((headerPayload chain_id hd).drop 144).take 32 = hd.transactionsRoot ∧
    fromBytesBE ((headerPayload chain_id hd).drop 176) = hd.timestamp ∧
    (∀ (c2 : ℕ) (th2 : List ℕ) (r2 : ReceiptView) (h2 : HeaderView),
      chain_id = c2 → tx_hash = th2 → rcpt = r2 → hd = h2 →
      tx_commitment keccak chain_id tx_hash rcpt = tx_commitment keccak c2 th2 r2 ∧
      header_commitment keccak chain_id hd = header_commitment keccak c2 h2) := by
  have l8c := toBytesBE_length 8 chain_id
  have l8bn := toBytesBE_length 8 rcpt.blockNumber
  have l1st := toBytesBE_length 1 rcpt.status
  have l8gu := toBytesBE_length 8 rcpt.gasUsed
  have l8n := toBytesBE_length 8 hd.number
  have l8ts := toBytesBE_length 8 hd.timestamp
  -- stepwise decompositions of the transaction payload
  have hd8 : (txPayload chain_id tx_hash rcpt).drop 8 =
      tx_hash ++ toBytesBE 8 rcpt.blockNumber ++ toBytesBE 1 rcpt.status ++
        toBytesBE 8 rcpt.gasUsed := by
    unfold txPayload
    rw [List.append_assoc, List.append_assoc, List.append_assoc,
      List.drop_left' l8c, ← List.append_assoc, ← List.append_assoc]
  have hd40 : (txPayload chain_id tx_hash rcpt).drop 40 =
      toBytesBE 8 rcpt.blockNumber ++ toBytesBE 1 rcpt.status ++
        toBytesBE 8 rcpt.gasUsed := by
    have : (40 : ℕ) = 8 + 32 := by norm_num
    rw [this, ← List.drop_drop, hd8, List.append_assoc, List.append_assoc,
      List.drop_left' hth, ← List.append_assoc]
  have hd48 : (txPayload chain_id tx_hash rcpt).drop 48 =
      toBytesBE 1 rcpt.status ++ toBytesBE 8 rcpt.gasUsed := by
    have : (48 : ℕ) = 40 + 8 := by norm_num
    rw [this, ← List.drop_drop, hd40, List.append_assoc, List.drop_left' l8bn]
  have hd49 : (txPayload chain_id tx_hash rcpt).drop 49 = toBytesBE 8 rcpt.gasUsed := by
    have : (49 : ℕ) = 48 + 1 := by norm_num
    rw [this, ← List.drop_drop, hd48, List.drop_left' l1st]
  -- stepwise decompositions of the header payload
  have g8 : (headerPayload chain_id hd).drop 8 =
      toBytesBE 8 hd.number ++ hd.hash ++ hd.parentHash ++ hd.stateRoot ++
        hd.receiptsRoot ++ hd.transactionsRoot ++ toBytesBE 8 hd.timestamp := by
    unfold headerPayload
    rw [show toBytesBE 8 chain_id ++ toBytesBE 8 hd.number ++ hd.hash ++ hd.parentHash ++
        hd.stateRoot ++ hd.receiptsRoot ++ hd.transactionsRoot ++ toBytesBE 8 hd.timestamp =
        toBytesBE 8 chain_id ++ (toBytesBE 8 hd.number ++ hd.hash ++ hd.parentHash ++
        hd.stateRoot ++ hd.receiptsRoot ++ hd.transactionsRoot ++ toBytesBE 8 hd.timestamp)
      by simp [List.append_assoc]]
    rw [List.drop_left' l8c]
  have g16 : (headerPayload chain_id hd).drop 16 =
      hd.hash ++ hd.parentHash ++ hd.stateRoot ++ hd.receiptsRoot ++
        hd.transactionsRoot ++ toBytesBE 8 hd.timestamp := by
    have : (16 : ℕ) = 8 + 8 := by norm_num
    rw [this, ← List.drop_drop, g8]
    rw [show toBytesBE 8 hd.number ++ hd.hash ++ hd.parentHash ++ hd.stateRoot ++
        hd.receiptsRoot ++ hd.transactionsRoot ++ toBytesBE 8 hd.timestamp =
        toBytesBE 8 hd.number ++ (hd.hash ++ hd.parentHash ++ hd.stateRoot ++
        hd.receiptsRoot ++ hd.transactionsRoot ++ toBytesBE 8 hd.timestamp)
      by simp [List.append_assoc]]
    rw [List.drop_left' l8n]
  have g48 : (headerPayload chain_id hd).drop 48 =
      hd.parentHash ++ hd.stateRoot ++ hd.receiptsRoot ++
        hd.transactionsRoot ++ toBytesBE 8 hd.timestamp := by
    have : (48 : ℕ) = 16 + 32 := by norm_num
    rw [this, ← List.drop_drop, g16]
    rw [show hd.hash ++ hd.parentHash ++ hd.stateRoot ++ hd.receiptsRoot ++
        hd.transactionsRoot ++ toBytesBE 8 hd.timestamp =
        hd.hash ++ (hd.parentHash ++ hd.stateRoot ++ hd.receiptsRoot ++
        hd.transactionsRoot ++ toBytesBE 8 hd.timestamp)
      by simp [List.append_assoc]]
    rw [List.drop_left' hh]
  have g80 : (headerPayload chain_id hd).drop 80 =
      hd.stateRoot ++ hd.receiptsRoot ++ hd.transactionsRoot ++
        toBytesBE 8 hd.timestamp := by
    have : (80 : ℕ) = 48 + 32 := by norm_num
    rw [this, ← List.drop_drop, g48]
    rw [show hd.parentHash ++ hd.stateRoot ++ hd.receiptsRoot ++
        hd.transactionsRoot ++ toBytesBE 8 hd.timestamp =
        hd.parentHash ++ (hd.stateRoot ++ hd.receiptsRoot ++
        hd.transactionsRoot ++ toBytesBE 8 hd.timestamp)
      by simp [List.append_assoc]]
    rw [List.drop_left' hph]
  have g112 : (headerPayload chain_id hd).drop 112 =
      hd.receiptsRoot ++ hd.transactionsRoot ++ toBytesBE 8 hd.timestamp := by
    have : (112 : ℕ) = 80 + 32 := by norm_num
    rw [this, ← List.drop_drop, g80]
    rw [show hd.stateRoot ++ hd.receiptsRoot ++ hd.transactionsRoot ++
        toBytesBE 8 hd.timestamp =
        hd.stateRoot ++ (hd.receiptsRoot ++ hd.transactionsRoot ++
        toBytesBE 8 hd.timestamp)
      by simp [List.append_assoc]]
    rw [List.drop_left' hsr]
  have g144 : (headerPayload chain_id hd).drop 144 =
      hd.transactionsRoot ++ toBytesBE 8 hd.timestamp := by
    have : (144 : ℕ) = 112 + 32 := by norm_num
    rw [this, ← List.drop_drop, g112, List.append_assoc, List.drop_left' hrr]
  have g176 : (headerPayload chain_id hd).drop 176 = toBytesBE 8 hd.timestamp := by
    have : (176 : ℕ) = 144 + 32 := by norm_num
    rw [this, ← List.drop_drop, g144, List.drop_left' htr]
  refine ⟨rfl, ?_, ?_, ?_, ?_, ?_, ?_, rfl, ?_, ?_, ?_, ?_, ?_, ?_, ?_, ?_, ?_, ?_⟩
  · unfold txPayload
    simp [List.length_append, l8c, l8bn, l1st, l8gu, hth]
  · unfold txPayload
    rw [List.append_assoc, List.append_assoc, List.append_assoc,
      List.take_left' l8c, fromBytesBE_toBytesBE 8 chain_id hcid]
  · rw [hd8, List.append_assoc, List.append_assoc, List.take_left' hth]
  · rw [hd40, List.append_assoc, List.take_left' l8bn,
      fromBytesBE_toBytesBE 8 rcpt.blockNumber hbn]
  · rw [hd48, List.take_left' l1st, fromBytesBE_toBytesBE 1 rcpt.status (by simpa using hst)]
  · rw [hd49, fromBytesBE_toBytesBE 8 rcpt.gasUsed hgu]
  · unfold headerPayload
    simp [List.length_append, l8c, l8n, l8ts, hh, hph, hsr, hrr, htr]
  · unfold headerPayload
    rw [show toBytesBE 8 chain_id ++ toBytesBE 8 hd.number ++ hd.hash ++ hd.parentHash ++
        hd.stateRoot ++ hd.receiptsRoot ++ hd.transactionsRoot ++ toBytesBE 8 hd.timestamp =
        toBytesBE 8 chain_id ++ (toBytesBE 8 hd.number ++ hd.hash ++ hd.parentHash ++
        hd.stateRoot ++ hd.receiptsRoot ++ hd.transactionsRoot ++ toBytesBE 8 hd.timestamp)
      by simp [List.append_assoc]]
    rw [List.take_left' l8c, fromBytesBE_toBytesBE 8 chain_id hcid]
  · rw [g8]
    rw [show toBytesBE 8 hd.number ++ hd.hash ++ hd.parentHash ++ hd.stateRoot ++
        hd.receiptsRoot ++ hd.transactionsRoot ++ toBytesBE 8 hd.timestamp =
        toBytesBE 8 hd.number ++ (hd.hash ++ hd.parentHash ++ hd.stateRoot ++
        hd.receiptsRoot ++ hd.transactionsRoot ++ toBytesBE 8 hd.timestamp)
      by simp [List.append_assoc]]
    rw [List.take_left' l8n, fromBytesBE_toBytesBE 8 hd.number hnum]
  · rw [g16]
    rw [show hd.hash ++ hd.parentHash ++ hd.stateRoot ++ hd.receiptsRoot ++
        hd.transactionsRoot ++ toBytesBE 8 hd.timestamp =
        hd.hash ++ (hd.parentHash ++ hd.stateRoot ++ hd.receiptsRoot ++
        hd.transactionsRoot ++ toBytesBE 8 hd.timestamp)
      by simp [List.append_assoc]]
    rw [List.take_left' hh]
  · rw [g48]
    rw [show hd.parentHash ++ hd.stateRoot ++ hd.receiptsRoot ++
        hd.transactionsRoot ++ toBytesBE 8 hd.timestamp =
        hd.parentHash ++ (hd.stateRoot ++ hd.receiptsRoot ++
        hd.transactionsRoot ++ toBytesBE 8 hd.timestamp)
      by simp [List.append_assoc]]
    rw [List.take_left' hph]
  · rw [g80]
    rw [show hd.stateRoot ++ hd.receiptsRoot ++ hd.transactionsRoot ++
        toBytesBE 8 hd.timestamp =
        hd.stateRoot ++ (hd.receiptsRoot ++ hd.transactionsRoot ++
        toBytesBE 8 hd.timestamp)
      by simp [List.append_assoc]]
    rw [List.take_left' hsr]
  · rw [g112, List.append_assoc, List.take_left' hrr]
  · rw [g144, List.take_left' htr]
  · rw [g176, fromBytesBE_toBytesBE 8 hd.timestamp hts]
  · intro c2 th2 r2 h2 e1 e2 e3 e4
    subst e1; subst e2; subst e3; subst e4
    exact ⟨rfl, rfl⟩

theorem commitment_byte_layout_witness :
    (1 : ℕ) < 256 ^ 8 ∧
    (txPayload 1 (List.replicate 32 0) ⟨100, 1, 21000⟩).length = 57 ∧
    fromBytesBE ((txPayload 1 (List.replicate 32 0) ⟨100, 1, 21000⟩).take 8) = 1 ∧
    (headerPayload 1 ⟨7, List.replicate 32 0, List.replicate 32 1, List.replicate 32 2,
      List.replicate 32 3, List.replicate 32 4, 1700000000⟩).length = 184 := by
  have h := commitment_byte_layout (fun l => l) 1 (List.replicate 32 0) ⟨100, 1, 21000⟩
    ⟨7, List.replicate 32 0, List.replicate 32 1, List.replicate 32 2,
      List.replicate 32 3, List.replicate 32 4, 1700000000⟩
    (by norm_num) (by simp) (by norm_num) (by norm_num) (by norm_num)
    (by norm_num) (by norm_num) (by simp) (by simp) (by simp) (by simp) (by simp)
  exact ⟨by norm_num, h.2.1, h.2.2.1, h.2.2.2.2.2.2.2.2.1⟩

/-- Python `d.get(k)`: the value bound to `k`, or `None` when the key is
absent.  Bundles are modelled as association lists (Python dicts have unique
keys; the first binding wins). -/
def dictGet {K V : Type} [DecidableEq K] : List (K × V) → K → Option V
  | [], _ => none
  | p :: rest, k => if p.1 = k then some p.2 else dictGet rest k

/-- The key list of a bundle. -/
def dictKeys {K V : Type} (d : List (K × V)) : List K := d.map Prod.fst

/-- Key list `sorted(set(a.keys()) | set(b.keys()))` from
`src/provider_consistency.py` line 108. -/
def keysUnion {K V : Type} [LinearOrder K] [DecidableEq K]
    (a b : List (K × V)) : List K :=
  ((dictKeys a ++ dictKeys b).dedup).insertionSort (· ≤ ·)

/-- Model of `compare_dicts(a, b)` from `src/provider_consistency.py` lines 102-108:
`{k: (a.get(k) == b.get(k)) for k in sorted(set(a.keys()) | set(b.keys()))}`. -/
def compare_dicts {K V : Type} [LinearOrder K] [DecidableEq K] [DecidableEq V]
    (a b : List (K × V)) : List (K × Bool) :=
  (keysUnion a b).map (fun k => (k, decide (dictGet a k = dictGet b k)))

/-- The consistency report built by `main` for a pair of fetched bundles:
the field-level comparison map and `all_match = all(cmp.values())`
(`src/provider_consistency.py` lines 208 and 236). -/
structure ConsistencyReport (K V : Type) where
  primary : List (K × V)
  secondary : List (K × V)
  matchMap : List (K × Bool)
  overallMatch : Bool

/-- The Consistency Verifier applied to two already-fetched bundles. -/
def verify {K V : Type} [LinearOrder K] [DecidableEq K] [DecidableEq V]
    (a b : List (K × V)) : ConsistencyReport K V where
  primary := a
  secondary := b
  matchMap := compare_dicts a b
  overallMatch := (compare_dicts a b).all (fun p => p.2)

theorem keysUnion_comm {K V : Type} [LinearOrder K] [DecidableEq K]
    (a b : List (K × V)) : keysUnion a b = keysUnion b a := by
  unfold keysUnion
  have hperm : List.Perm ((dictKeys a ++ dictKeys b).dedup) ((dictKeys b ++ dictKeys a).dedup) := by
    rw [List.perm_ext_iff_of_nodup (List.nodup_dedup _) (List.nodup_dedup _)]
    intro k
    simp only [List.mem_dedup, List.mem_append]
    exact or_comm
  have hperm2 : List.Perm (((dictKeys a ++ dictKeys b).dedup).insertionSort (· ≤ ·))
      (((dictKeys b ++ dictKeys a).dedup).insertionSort (· ≤ ·)) :=
    ((List.perm_insertionSort _ _).trans hperm).trans
      (List.perm_insertionSort _ _).symm
  exact List.eq_of_perm_of_sorted hperm2
    (List.sorted_insertionSort _ _) (List.sorted_insertionSort _ _)

theorem dictGet_map_keys {K : Type} [DecidableEq K] (f : K → Bool) :
    ∀ (l : List K) (k : K),
      dictGet (l.map (fun x => (x, f x))) k = if k ∈ l then some (f k) else none := by
  intro l
  induction l with
  | nil => intro k; simp [dictGet]
  | cons x xs ih =>
    intro k
    by_cases h : x = k
    · subst h
      simp [dictGet]
    · simp only [List.map_cons, dictGet, if_neg h, ih, List.mem_cons]
      have : ¬ k = x := fun hk => h hk.symm
      simp [this]

/-- C7: the Consistency Verifier's `matchMap` is computed over the union of
the keys of both bundles, with `matchMap[k] = (a.get(k) == b.get(k))`, and it
is symmetric under swapping the two providers:
`verify(A,B).matchMap = verify(B,A).matchMap`. -/
theorem matchMap_union_and_symmetric {K V : Type} [LinearOrder K]
    [DecidableEq K] [DecidableEq V] (a b : List (K × V)) :
    (∀ k : K, dictGet (verify a b).matchMap k =
      if k ∈ dictKeys a ∨ k ∈ dictKeys b
      then some (decide (dictGet a k = dictGet b k)) else none) ∧
    (verify a b).matchMap = (verify b a).matchMap := by
  constructor
  · intro k
    show dictGet (compare_dicts a b) k = _
    unfold compare_dicts
    rw [dictGet_map_keys]
    have hmem : k ∈ keysUnion a b ↔ k ∈ dictKeys a ∨ k ∈ dictKeys b := by
      unfold keysUnion
      rw [List.mem_insertionSort, List.mem_dedup, List.mem_append]
    by_cases h : k ∈ dictKeys a ∨ k ∈ dictKeys b
    · rw [if_pos (hmem.mpr h), if_pos h]
    · rw [if_neg (fun hk => h (hmem.mp hk)), if_neg h]
  · show compare_dicts a b = compare_dicts b a
    unfold compare_dicts
    rw [keysUnion_comm]
    apply List.map_congr_left
    intro k _
    have : (dictGet a k = dictGet b k) ↔ (dictGet b k = dictGet a k) :=
      ⟨Eq.symm, Eq.symm⟩
    rw [decide_eq_decide.mpr this]

end ProviderConsistency

namespace FeeProfile

/-- Python runtime error kinds needed by the model. -/
inductive PyRuntimeError where
  | nameError
  deriving DecidableEq, Repr

/-- The average-block-time computation of `analyze`
(`src/fee-profile.py` lines 126-133).  When at least two blocks were sampled
and `head > start`, the branch fetches the head and start blocks and then, on
line 129, evaluates `block.number` — but the name `block` is bound nowhere in
`analyze` (whose loop variables are `n` and `blk`) nor at module level, so
the branch raises `NameError` before lines 130-131 (`time_diff` and the
`max(0.0, time_diff / (head - start))` clamp) can run.  In every other case
`block_time_avg = 0.0`. -/
def analyzeAvgBlockTime (sampledCount : ℕ) (head start : ℤ) :
    Except PyRuntimeError ℚ :=
  if 2 ≤ sampledCount ∧ start < head then Except.error PyRuntimeError.nameError
  else Except.ok 0

/-- C10 (code bug): with three sampled blocks, `head = 2` and `start = 0`,
`analyze` raises `NameError` (undefined name `block` on line 129 of
`src/fee-profile.py`) instead of reporting
`max(0, Δtimestamp / (head - start))`; on runs where fewer than two blocks
were sampled or `head = start`, it reports `0.0` as the claim states. -/
theorem analyze_block_time_raises_name_error :
    analyzeAvgBlockTime 3 2 0 = Except.error PyRuntimeError.nameError ∧
    analyzeAvgBlockTime 1 2 0 = Except.ok 0 ∧
    analyzeAvgBlockTime 3 2 2 = Except.ok 0 :=
  ⟨rfl, rfl, rfl⟩

end FeeProfile

namespace Apps

/-- Python strings are modelled as lists of characters. -/
abbrev PyStr := List Char

/-- Python `s.startswith(pre)`. -/
def pyStartsWith (pre s : PyStr) : Bool := List.isPrefixOf pre s

/-- Model of `is_tx_hash(s)` from `src/App2.py` lines 29-30: the string starts with
`"0x"` and has total length 66.  The 64 trailing characters are not checked
to be hex digits. -/
def is_tx_hash (s : PyStr) : Bool := pyStartsWith ['0', 'x'] s && s.length == 66

/-- The validation performed by `parse_hash(value)` from `src/app1.py`
lines 35-39: same prefix/length check as `App2.is_tx_hash`, again without
any hex-digit check. -/
def parse_hash_ok (s : PyStr) : Bool := pyStartsWith ['0', 'x'] s && s.length == 66

def isHexChar (c : Char) : Bool :=
  ('0' ≤ c && c ≤ '9') || ('a' ≤ c && c ≤ 'f') || ('A' ≤ c && c ≤ 'F')

/-- Refinement target, following the claim's words rather than the source: a
well-formed transaction hash is `0x` followed by 64 hex characters. -/
def specWellFormedTxHash (s : PyStr) : Bool :=
  pyStartsWith ['0', 'x'] s && s.length == 66 && (s.drop 2).all isHexChar

/-- Outcome of an app entry point with respect to input validation. -/
inductive AppOutcome where
  | invalidInput
  | proceeds
  deriving DecidableEq, Repr

/-- Model of `main()` of `src/App2.py` (lines 167-245): the `is_tx_hash` check
(line 175, `sys.exit(1)` on failure) precedes `connect(args.rpc)`
(line 180) and all Gateway traffic.  On a valid format the run probes the
connection, prints the detected chain id, and `fetch_tx_summary` issues its
queries: chain id, receipt, transaction (twice — the pending-check of
line 65 and the gas-limit fetch of line 86; the mangled duplicate block at
lines 74-77 is elided), the block at `rcpt.blockNumber`, and the latest
block number. -/
def app2Main (tx_hash : PyStr) (rcptBlockNumber : ℤ) :
    AppOutcome × List GatewayCall :=
  if is_tx_hash tx_hash then
    (AppOutcome.proceeds,
      [GatewayCall.connectProbe, GatewayCall.chainId, GatewayCall.chainId,
       GatewayCall.getTransactionReceipt, GatewayCall.getTransaction,
       GatewayCall.getTransaction, GatewayCall.getBlock rcptBlockNumber false,
       GatewayCall.blockNumber])
  else (AppOutcome.invalidInput, [])

/-- Model of `main()` of `src/app1.py` (lines 83-126): `connect(args.rpc)` (line 90)
and the chain-id banner (line 91, which reads `w3.eth.chain_id` twice) run
BEFORE `parse_hash(args.tx_hash)` (line 93), so an invalid hash exits only
after the RPC connection was already established.  On a valid hash the run
continues with `fetch_gas_data` (latest block and gas price),
`fetch_tx_data` (receipt; the transaction fallback of line 65 only fires
when the receipt lacks from/to) and the confirmations read of line 108. -/
def app1Main (tx_hash : PyStr) : AppOutcome × List GatewayCall :=
  let preValidation : List GatewayCall :=
    [GatewayCall.connectProbe, GatewayCall.chainId, GatewayCall.chainId]
  if parse_hash_ok tx_hash then
    (AppOutcome.proceeds,
      preValidation ++
        [GatewayCall.getBlock 0 false, GatewayCall.gasPrice,
         GatewayCall.getTransactionReceipt, GatewayCall.blockNumber])
  else (AppOutcome.invalidInput, preValidation)

/-- C8 counterexample: `"0x"` followed by 64 `'z'` characters is malformed
according to the claim (the 64 characters are not hex), yet neither checker
rejects it: `is_tx_hash`/`parse_hash` accept it and `App2.main` proceeds to
issue Gateway calls instead of failing with `InvalidInputError`. -/
theorem malformed_hash_not_rejected :
    specWellFormedTxHash ('0' :: 'x' :: List.replicate 64 'z') = false ∧
    is_tx_hash ('0' :: 'x' :: List.replicate 64 'z') = true ∧
    (app2Main ('0' :: 'x' :: List.replicate 64 'z') 100).1 = AppOutcome.proceeds ∧
    (app2Main ('0' :: 'x' :: List.replicate 64 'z') 100).2 ≠ [] := by
  refine ⟨?_, ?_, ?_, ?_⟩ <;> decide

/-- C8 (amended): a caller-supplied hash failing the prefix/length format
check (starts with `0x`, total length 66) fails the run with an invalid-input
error; in `App2` this happens before any network call (the Gateway trace is
empty), while `app1` establishes the RPC connection and reads the chain id
before validating.  The hex content of the 64 trailing characters is not
validated by either app. -/
theorem invalid_hash_rejected_app2_before_network (s : PyStr) (bn : ℤ) :
    (is_tx_hash s = false → app2Main s bn = (AppOutcome.invalidInput, [])) ∧
    (parse_hash_ok s = false →
      (app1Main s).1 = AppOutcome.invalidInput ∧
      (app1Main s).2 =
        [GatewayCall.connectProbe, GatewayCall.chainId, GatewayCall.chainId]) := by
  constructor
  · intro h
    unfold app2Main
    rw [h]
    rfl
  · intro h
    unfold app1Main
    rw [h]
    exact ⟨rfl, rfl⟩

theorem invalid_hash_rejected_app2_before_network_witness :
    is_tx_hash ['a'] = false ∧
    app2Main ['a'] 0 = (AppOutcome.invalidInput, []) ∧
    (app1Main ['a']).2 =
      [GatewayCall.connectProbe, GatewayCall.chainId, GatewayCall.chainId] := by
  have h := invalid_hash_rejected_app2_before_network ['a'] 0
  exact ⟨by decide, h.1 (by decide), (h.2 (by decide)).2⟩

/-- Value `confirmations = max(0, int(latest) - int(rcpt.blockNumber))` from
`src/App2.py` line 103 (`fetch_tx_summary`). -/
def fetchTxSummaryConfirmations (latest blockNumber : ℤ) : ℤ :=
  max 0 (latest - blockNumber)

/-- Value `confirmations = max(0, int(latest_block) - block_num)` from
`src/batch_fee_report.py` line 102 (`summarize_tx`). -/
def summarizeTxConfirmations (latest_block block_num : ℤ) : ℤ :=
  max 0 (latest_block - block_num)

/-- Value `confirmations = latest_block - tx_data["block_number"]` from
`src/app1.py` line 109 (`main`): no clamping. -/
def app1Confirmations (latest_block block_number : ℤ) : ℤ :=
  latest_block - block_number

/-- C4 counterexample: the confirmations value printed by `app1.py` for
`latest = 5`, `blockNumber = 10` (a stale head read) is `-5`: negative, and
not `max(0, latest - blockNumber)`.  The claim fails for this transaction
summary. -/
theorem app1_reports_negative_confirmations :
    app1Confirmations 5 10 = -5 ∧
    app1Confirmations 5 10 < 0 ∧
    app1Confirmations 5 10 ≠ max 0 (5 - 10) := by
  refine ⟨?_, ?_, ?_⟩ <;> decide

/-- C4 (amended): `App2.fetch_tx_summary` and
`batch_fee_report.summarize_tx` report `confirmations =
max(0, latest - blockNumber)`, which is never negative even when
`latest < blockNumber`; `app1.main`, however, reports the unclamped
difference `latest - blockNumber`, which is negative on a stale head read. -/
theorem confirmations_clamped_except_app1 (latest bn : ℤ) :
    fetchTxSummaryConfirmations latest bn = max 0 (latest - bn) ∧
    0 ≤ fetchTxSummaryConfirmations latest bn ∧
    summarizeTxConfirmations latest bn = max 0 (latest - bn) ∧
    0 ≤ summarizeTxConfirmations latest bn ∧
    app1Confirmations latest bn = latest - bn ∧
    (latest < bn → app1Confirmations latest bn < 0) := by
  refine ⟨rfl, le_max_left 0 _, rfl, le_max_left 0 _, rfl, ?_⟩
  intro h
  unfold app1Confirmations
  omega

theorem confirmations_clamped_except_app1_witness :
    (5:ℤ) < 10 ∧ app1Confirmations 5 10 < 0 ∧
    0 ≤ fetchTxSummaryConfirmations 5 10 := by
  have h := confirmations_clamped_except_app1 5 10
  exact ⟨by decide, h.2.2.2.2.2 (by decide), h.2.1⟩

end Apps
